import Mathlib

/-!
Verification of the async script loader (`src/src/index.ts`, canonical strict
variant, and `src/unnamed/part_000`, loose variant) against its specification.

The TypeScript source is shallowly embedded: JavaScript runtime values that the
validators inspect are modelled by small inductive types, the environment-provided
WHATWG URL parser is modelled only as far as the validator observes it (parse
success and the resulting protocol), `encodeURIComponent` is modelled per the
ECMAScript definition (UTF-8 percent-encoding with the unescaped set
`A-Z a-z 0-9 - _ . ! ~ * ' ( )`), and the promise/event race is modelled as an
explicit one-shot state machine over the three race participants.
-/

/-- A JavaScript runtime value as far as the validators inspect it: either a
string or some non-string value (`typeof x !== 'string'`). -/
inductive JSVal where
  | str (s : String)
  | nonString
deriving DecidableEq, Repr

/-- The runtime shape of the `queryParamsObject` argument as far as the
validators inspect it: `null`, `undefined`, an array, a non-object primitive,
or a plain object given as its `Object.keys` insertion-ordered entry list. -/
inductive JParams where
  | jnull
  | jundef
  | jarr
  | jprim
  | jobj (entries : List (String × JSVal))
deriving DecidableEq, Repr

/-- A JavaScript `Error` value: `TypeError` vs plain `Error`, with its message.
The spec file groups all of these under the `ValidationError` /
`EnvironmentError` / `DomError` / `LoadError` / `TimeoutError` taxonomy; in the
code they are distinguished only by constructor and message. -/
inductive JsError where
  | typeError (msg : String)
  | error (msg : String)
deriving DecidableEq, Repr

instance : DecidableEq (Except JsError String) := fun a b =>
  match a, b with
  | .ok x, .ok y => decidable_of_iff (x = y) (by simp)
  | .error x, .error y => decidable_of_iff (x = y) (by simp)
  | .ok _, .error _ => isFalse (by simp)
  | .error _, .ok _ => isFalse (by simp)

/-- Mirrors the TS `interface ValidationResult { valid: boolean; error?: Error }`. -/
structure ValidationResult where
  valid : Bool
  error : Option JsError
deriving DecidableEq, Repr

/-- JavaScript `String.prototype.trim`, modelled at character level (drop
leading and trailing whitespace). Structurally recursive so that concrete
instances evaluate inside the kernel. -/
def jsTrim (s : String) : String :=
  String.mk (((s.data.dropWhile Char.isWhitespace).reverse.dropWhile
    Char.isWhitespace).reverse)

/-- JavaScript `String.prototype.includes` on a single character, modelled at
character level. -/
def containsChar (s : String) (c : Char) : Bool :=
  s.data.contains c

/-- A character that may appear in a URL scheme after the first: ASCII
alphanumeric or `+`, `-`, `.` (RFC 3986 / WHATWG). -/
def isSchemeChar (c : Char) : Bool :=
  c.isAlphanum || c = '+' || c = '-' || c = '.'

/-- Scan for `scheme ":"` at the head of the character list: an ASCII letter
followed by scheme characters up to a colon. Returns the scheme lowercased,
together with the remainder after the colon. -/
def schemeScan (acc : List Char) : List Char → Option (String × List Char)
  | [] => none
  | c :: rest =>
    if c = ':' then some (String.mk (acc.reverse.map Char.toLower), rest)
    else if isSchemeChar c then schemeScan (c :: acc) rest
    else none

/-- The scheme of `s` and the remainder after its colon, if `s` begins with
`letter (scheme-char)* ":"`. -/
def schemeSplit (s : String) : Option (String × List Char) :=
  match s.data with
  | [] => none
  | c :: rest => if c.isAlpha then schemeScan [c] rest else none

/-- The scheme of `s`, if `s` begins with `letter (scheme-char)* ":"`. -/
def schemeOf (s : String) : Option String :=
  (schemeSplit s).map fun p => p.1

/-- The WHATWG special schemes: absolute URLs with these schemes carry an
authority component. -/
def isSpecialScheme (sch : String) : Bool :=
  sch = "ftp" || sch = "file" || sch = "http" || sch = "https" || sch = "ws" || sch = "wss"

/-- A character that ends the authority component. -/
def isAuthorityEnd (c : Char) : Bool :=
  c = '/' || c = '\\' || c = '?' || c = '#'

/-- The authority segment of the part following `scheme:`: leading slashes and
backslashes are skipped (the WHATWG special-authority-ignore-slashes state),
then characters up to a path/query/fragment delimiter. -/
def authorityOf (rest : List Char) : List Char :=
  (rest.dropWhile fun c => c = '/' || c = '\\').takeWhile fun c => !isAuthorityEnd c

/-- Models the environment's WHATWG URL parser `new URL(input, base)` as far as
`validateInputs` observes it: whether parsing succeeds and the resulting
`protocol`. `baseProtocol` is the protocol of `window.location.origin`
(`none` models an opaque origin such as the string `"null"`); the constructor
parses the base before the input, so an opaque base throws for every input,
absolute or not. An input carrying its own scheme is parsed absolutely: it
fails when the scheme is special (other than `file`) and the authority is
empty — e.g. `ftp://` or `http://` — and otherwise yields `scheme ++ ":"`;
an input without a scheme resolves against the base, inheriting the base's
protocol. Not modelled: host-content validation (forbidden code points,
ports, IP literals) and the same-special-scheme relative reinterpretation of
`scheme:...` inputs, which move inputs between the parser's two rejection
modes (or to success with the protocol unchanged) — the theorems below only
distinguish those modes where the model is exact (non-special schemes and
well-formed or authority-less http(s)-family URLs). -/
def newURLProtocol (input : String) (baseProtocol : Option String) : Option String :=
  match baseProtocol with
  | none => none
  | some p =>
    match schemeSplit (jsTrim input) with
    | some (sch, rest) =>
      if isSpecialScheme sch ∧ sch ≠ "file" ∧ authorityOf rest = [] then none
      else some (sch ++ ":")
    | none => some p

/-- Per-key loop body of `validateInputs` (`src/src/index.ts` lines 37-44):
for each key in order, first the empty-key check, then the string-value check. -/
def validateParamEntries : List (String × JSVal) → ValidationResult
  | [] => ⟨true, none⟩
  | (k, v) :: rest =>
    if jsTrim k = "" then
      ⟨false, some (.error "queryParamsObject keys cannot be empty")⟩
    else
      match v with
      | .nonString =>
        ⟨false, some (.typeError ("queryParamsObject value for key \"" ++ k ++ "\" must be a string"))⟩
      | .str _ => validateParamEntries rest

/-- The params half of `validateInputs` (`src/src/index.ts` lines 29-44). -/
def validateParamsStrict (q : JParams) : ValidationResult :=
  match q with
  | .jnull => ⟨false, some (.typeError "queryParamsObject must be an object")⟩
  | .jundef => ⟨false, some (.typeError "queryParamsObject must be an object")⟩
  | .jarr => ⟨false, some (.typeError "queryParamsObject must be a plain object")⟩
  | .jprim => ⟨false, some (.typeError "queryParamsObject must be a plain object")⟩
  | .jobj l => validateParamEntries l

/-- `validateInputs` of `src/src/index.ts` (lines 6-47): string check, trimmed
non-emptiness, URL parse against `window.location.origin` with an
http/https-only protocol allow-list, then the params checks.
`originProtocol` is the ambient `window.location.origin`'s protocol. -/
def validateInputs (originProtocol : Option String) (baseUrl : JSVal) (q : JParams) :
    ValidationResult :=
  match baseUrl with
  | .nonString => ⟨false, some (.typeError "baseUrl must be a string")⟩
  | .str b =>
    if jsTrim b = "" then ⟨false, some (.error "baseUrl cannot be empty")⟩
    else
      match newURLProtocol b originProtocol with
      | none => ⟨false, some (.error "baseUrl must be a valid URL")⟩
      | some p =>
        if p = "http:" || p = "https:" then validateParamsStrict q
        else ⟨false, some (.error "baseUrl must use http: or https: protocol")⟩

/-- The set of characters `encodeURIComponent` leaves unescaped
(ECMAScript `uriUnescaped`): ASCII alphanumerics and `- _ . ! ~ * ' ( )`. -/
def isUriUnescaped (c : Char) : Bool :=
  c.isAlphanum || c = '-' || c = '_' || c = '.' || c = '!' || c = '~' ||
    c = '*' || c = Char.ofNat 39 || c = '(' || c = ')'

/-- UTF-8 bytes of a Unicode scalar value (each in `0..255`). -/
def utf8Bytes (c : Char) : List Nat :=
  let n := c.toNat
  if n < 0x80 then [n]
  else if n < 0x800 then [0xC0 + n / 64, 0x80 + n % 64]
  else if n < 0x10000 then [0xE0 + n / 4096, 0x80 + n / 64 % 64, 0x80 + n % 64]
  else [0xF0 + n / 262144, 0x80 + n / 4096 % 64, 0x80 + n / 64 % 64, 0x80 + n % 64]

/-- Uppercase hexadecimal digit for `n < 16`. -/
def hexDigitU (n : Nat) : Char :=
  if n < 10 then Char.ofNat (48 + n) else Char.ofNat (55 + n)

/-- `%XX` percent-escape of one byte. -/
def pctTriple (b : Nat) : List Char :=
  ['%', hexDigitU (b / 16), hexDigitU (b % 16)]

/-- Encoding of one character as `encodeURIComponent` renders it: itself when
in the unescaped set, otherwise the percent-escapes of its UTF-8 bytes. -/
def encChar (c : Char) : List Char :=
  if isUriUnescaped c then [c] else (utf8Bytes c).flatMap pctTriple

/-- Character-list form of `encodeURIComponent`. -/
def encList (l : List Char) : List Char :=
  l.flatMap encChar

/-- The environment's `encodeURIComponent`, per the ECMAScript definition
(UTF-8 percent-encoding; spaces become `%20`, not `+`). -/
def encodeURIComponent (s : String) : String :=
  String.mk (encList s.data)

/-- The indexed `keys.reduce` of `generateUrl` (`src/src/index.ts` lines
126-131): each pair contributes `sep ++ encodedKey ++ "=" ++ encodedValue`,
where `sep` is `firstSeparator` at index 0 and `&` afterwards. -/
def queryReduceAux (firstSep : String) (i : Nat) (acc : String) :
    List (String × String) → String
  | [] => acc
  | (k, v) :: rest =>
    queryReduceAux firstSep (i + 1)
      (acc ++ (if i = 0 then firstSep else "&") ++
        encodeURIComponent k ++ "=" ++ encodeURIComponent v) rest

/-- The query string built by `generateUrl`'s reduce, separator included. -/
def queryReduce (firstSep : String) (ps : List (String × String)) : String :=
  queryReduceAux firstSep 0 "" ps

/-- The string value of a `JSVal` known (by prior validation) to be a string. -/
def strVal : JSVal → String
  | .str s => s
  | .nonString => ""

/-- The post-validation body shared verbatim by both variants of `generateUrl`
(`src/src/index.ts` lines 116-133, `src/unnamed/part_000` lines 101-118):
empty params return `baseUrl` as-is, otherwise the first separator is `&` when
`baseUrl` contains `?` and `?` otherwise, and the reduce appends the pairs. -/
def buildCore (baseUrl : String) (ps : List (String × String)) : String :=
  if ps.length = 0 then baseUrl
  else
    let firstSeparator := if containsChar baseUrl '?' then "&" else "?"
    baseUrl ++ queryReduce firstSeparator ps

/-- Entries of a validated params object as string pairs. -/
def entryStrings (l : List (String × JSVal)) : List (String × String) :=
  l.map fun p => (p.1, strVal p.2)

/-- `generateUrl` of `src/src/index.ts` (lines 109-134): re-validates via
`validateInputs` (throwing, modelled as `Except.error`, on failure), then runs
the shared build body. The wildcard arm is unreachable: `validateInputs` only
returns `valid` on a string base URL and a plain-object params value. -/
def generateUrl (originProtocol : Option String) (baseUrl : JSVal) (q : JParams) :
    Except JsError String :=
  let validation := validateInputs originProtocol baseUrl q
  if validation.valid then
    match baseUrl, q with
    | .str b, .jobj l => .ok (buildCore b (entryStrings l))
    | _, _ => .error (.error "unreachable")
  else .error (validation.error.getD (.error "unreachable"))

/-- Per-key value check of the loose `generateUrl` (`src/unnamed/part_000`
lines 95-99): only the string-value check, in key order. -/
def validateLooseValues : List (String × JSVal) → Option JsError
  | [] => none
  | (k, v) :: rest =>
    match v with
    | .nonString =>
      some (.typeError ("queryParamsObject value for key \"" ++ k ++ "\" must be a string"))
    | .str _ => validateLooseValues rest

/-- The inline validation of the loose `generateUrl` (`src/unnamed/part_000`
lines 80-99): string check, trimmed non-emptiness, null/undefined, plain
object, string values — no URL parse, no scheme allow-list, no empty-key
check. -/
def validateLooseGen (baseUrl : JSVal) (q : JParams) : Option JsError :=
  match baseUrl with
  | .nonString => some (.typeError "baseUrl must be a string")
  | .str b =>
    if jsTrim b = "" then some (.error "baseUrl cannot be empty")
    else
      match q with
      | .jnull => some (.typeError "queryParamsObject must be an object")
      | .jundef => some (.typeError "queryParamsObject must be an object")
      | .jarr => some (.typeError "queryParamsObject must be a plain object")
      | .jprim => some (.typeError "queryParamsObject must be a plain object")
      | .jobj l => validateLooseValues l

/-- `generateUrl` of `src/unnamed/part_000` (lines 79-119): inline loose
validation, then the same shared build body. -/
def generateUrlLoose (baseUrl : JSVal) (q : JParams) : Except JsError String :=
  match validateLooseGen baseUrl q with
  | some e => .error e
  | none =>
    match baseUrl, q with
    | .str b, .jobj l => .ok (buildCore b (entryStrings l))
    | _, _ => .error (.error "unreachable")

/-- The ambient browser environment as `asyncScriptLoader` probes it: whether
`window` is defined, the protocol of `window.location.origin` (`none` models
an opaque origin), and whether the document has a `<head>` element. -/
structure Env where
  hasWindow : Bool
  originProtocol : Option String
  hasHead : Bool
deriving DecidableEq, Repr

/-- A DOM interaction performed by `asyncScriptLoader` before the race begins:
`document.createElement('script')` and
`headElement.insertAdjacentElement('beforeend', scriptElement)`. -/
inductive DomOp where
  | createElement
  | insertBeforeEnd
deriving DecidableEq, Repr

/-- How one call to `asyncScriptLoader` leaves the synchronous phase: an
already-rejected promise, a synchronously thrown error (unreachable in the
source, kept for fidelity to the unprotected `generateUrl` call site), or a
pending promise racing on the constructed URL. -/
inductive LoadStart where
  | rejected (e : JsError)
  | thrown (e : JsError)
  | pending (url : String)
deriving DecidableEq, Repr

/-- The fixed timeout of the loader (`src/src/index.ts` line 61). -/
def timeoutDuration : Nat := 2000

/-- The synchronous phase of `asyncScriptLoader` (`src/src/index.ts` lines
49-75), paired with the list of DOM interactions it performs in order:
window probe, validation, URL construction, element creation, head lookup,
insertion. Note the element is created before the head lookup. -/
def asyncScriptLoader (env : Env) (baseUrl : JSVal) (q : JParams) :
    LoadStart × List DomOp :=
  if env.hasWindow = false then
    (.rejected (.error "asyncScriptLoader requires a browser environment"), [])
  else
    let validation := validateInputs env.originProtocol baseUrl q
    if validation.valid = false then
      (.rejected (validation.error.getD (.error "unreachable")), [])
    else
      match generateUrl env.originProtocol baseUrl q with
      | .error e => (.thrown e, [])
      | .ok constructedUrl =>
        if env.hasHead = false then
          (.rejected (.error "No <head> element found in document"), [.createElement])
        else
          (.pending constructedUrl, [.createElement, .insertBeforeEnd])

/-- The settled value of the promise: resolve with no payload, or reject with
an error. -/
inductive Outcome where
  | success
  | failure (e : JsError)
deriving DecidableEq, Repr

/-- State of one pending load after insertion (`src/src/index.ts` lines
76-106): the one-shot promise cell, whether the timer is still armed, whether
each listener is still attached, and whether the node is still in the
document. -/
structure RaceState where
  settled : Option Outcome
  timerActive : Bool
  hasLoadListener : Bool
  hasErrorListener : Bool
  attached : Bool
deriving DecidableEq, Repr

/-- State right after `headElement.insertAdjacentElement` and the listener /
timer registrations: unsettled, timer armed, both listeners attached, node in
the document. -/
def initRace : RaceState :=
  ⟨none, true, true, true, true⟩

/-- The one-shot completion primitive: `resolve`/`reject` settle the promise
only if it is not yet settled; later attempts are no-ops. -/
def settle (o : Outcome) (st : RaceState) : RaceState :=
  match st.settled with
  | some _ => st
  | none => { st with settled := some o }

/-- The `cleanup(removeElement)` closure (`src/src/index.ts` lines 77-84):
`clearTimeout`, remove both listeners, and, when requested and the node still
has a parent, remove the node. -/
def cleanup (removeElement : Bool) (st : RaceState) : RaceState :=
  { st with
    timerActive := false
    hasLoadListener := false
    hasErrorListener := false
    attached := if removeElement && st.attached then false else st.attached }

/-- The three race participants: the `load` listener, the `error` listener,
and the `setTimeout` timer. -/
inductive RaceEvent where
  | load
  | error
  | timer
deriving DecidableEq, Repr

/-- The `onError` rejection message (`src/src/index.ts` line 101). -/
def loadErrorMsg (url : String) : String :=
  "Failed to load " ++ url ++ "."

/-- The timeout rejection message (`src/src/index.ts` line 89). -/
def timeoutMsg (url : String) : String :=
  "Script loading timed out after " ++ toString timeoutDuration ++ "ms: " ++ url

/-- Dispatch of one event against the race state. An event only runs its
handler while its registration is live (a removed listener / cleared timer
never fires); the handler body is `cleanup` followed by the one-shot
settlement, exactly as in `src/src/index.ts` lines 86-105. -/
def raceStep (url : String) (st : RaceState) (e : RaceEvent) : RaceState :=
  match e with
  | .load =>
    if st.hasLoadListener then settle .success (cleanup false st) else st
  | .error =>
    if st.hasErrorListener then
      settle (.failure (.error (loadErrorMsg url))) (cleanup true st)
    else st
  | .timer =>
    if st.timerActive then
      settle (.failure (.error (timeoutMsg url))) (cleanup true st)
    else st

/-- Run a sequence of event firings against the race state, in order (the
cooperative event queue runs handlers one at a time). -/
def raceRun (url : String) (st : RaceState) (es : List RaceEvent) : RaceState :=
  es.foldl (raceStep url) st

/-- The outcome the first-firing event determines, per the spec's race table. -/
def firstEventOutcome (url : String) : RaceEvent → Outcome
  | .load => .success
  | .error => .failure (.error (loadErrorMsg url))
  | .timer => .failure (.error (timeoutMsg url))

/-- Value of a hexadecimal digit character (either case), if any. -/
def hexVal (c : Char) : Option Nat :=
  if '0' ≤ c ∧ c ≤ '9' then some (c.toNat - 48)
  else if 'A' ≤ c ∧ c ≤ 'F' then some (c.toNat - 55)
  else if 'a' ≤ c ∧ c ≤ 'f' then some (c.toNat - 87)
  else none

/-- Percent-decode a character list to a byte list: each `%XX` contributes the
byte `XX`, every other character contributes its own UTF-8 bytes. Fails on a
malformed escape. -/
def pctDecode : List Char → Option (List Nat)
  | [] => some []
  | c :: cs =>
    if c = '%' then
      match cs with
      | h1 :: h2 :: cs₂ =>
        match hexVal h1, hexVal h2 with
        | some a, some b => (pctDecode cs₂).map fun t => (a * 16 + b) :: t
        | _, _ => none
      | _ => none
    else (pctDecode cs).map fun t => utf8Bytes c ++ t

/-- UTF-8 byte-stream decoder as a state machine: the state carries, inside a
multi-byte sequence, the accumulated code-point bits and the number of
continuation bytes still expected. (Overlong forms and surrogate code points
are not rejected; the encoder side never produces them.) -/
def utf8DecodeAux : Option (Nat × Nat) → List Nat → Option (List Char)
  | none, [] => some []
  | some _, [] => none
  | none, b :: bs =>
    if b < 0x80 then (utf8DecodeAux none bs).map fun cs => Char.ofNat b :: cs
    else if b < 0xC0 then none
    else if b < 0xE0 then utf8DecodeAux (some (b - 0xC0, 1)) bs
    else if b < 0xF0 then utf8DecodeAux (some (b - 0xE0, 2)) bs
    else if b < 0xF8 then utf8DecodeAux (some (b - 0xF0, 3)) bs
    else none
  | some (acc, rem), b :: bs =>
    if 0x80 ≤ b ∧ b < 0xC0 then
      if rem ≤ 1 then
        (utf8DecodeAux none bs).map fun cs => Char.ofNat (acc * 64 + (b - 0x80)) :: cs
      else utf8DecodeAux (some (acc * 64 + (b - 0x80), rem - 1)) bs
    else none

/-- Split a character list at every occurrence of `sep` (like
`String.prototype.split` on a one-character separator: `n` separators yield
`n + 1` parts). -/
def splitOnChar (sep : Char) : List Char → List (List Char)
  | [] => [[]]
  | c :: cs =>
    match splitOnChar sep cs with
    | [] => [[c]]
    | p :: ps => if c = sep then [] :: p :: ps else (c :: p) :: ps

/-- Split a character list at its first `=`, if any. -/
def splitFirstEq : List Char → Option (List Char × List Char)
  | [] => none
  | c :: cs =>
    if c = '=' then some ([], cs)
    else (splitFirstEq cs).map fun kv => (c :: kv.1, kv.2)

/-- Percent-decode one query component and reassemble it as a string
(UTF-8 decoding of the decoded bytes). -/
def decodeComp (l : List Char) : Option String :=
  match pctDecode l with
  | none => none
  | some bs => (utf8DecodeAux none bs).map String.mk

/-- Decode one `key=value` chunk of a query string. -/
def decodePairStr (part : List Char) : Option (String × String) :=
  match splitFirstEq part with
  | none => none
  | some (k, v) =>
    match decodeComp k, decodeComp v with
    | some ks, some vs => some (ks, vs)
    | _, _ => none

/-- Decode every chunk, failing if any chunk fails. -/
def decodePairsList : List (List Char) → Option (List (String × String))
  | [] => some []
  | p :: ps =>
    match decodePairStr p, decodePairsList ps with
    | some a, some rest => some (a :: rest)
    | _, _ => none

/-- Percent-decode a query string (no leading separator): split on `&`, split
each chunk at its first `=`, percent-decode both components. -/
def decodeQueryString (s : String) : Option (List (String × String)) :=
  decodePairsList (splitOnChar '&' s.data)

/-- The characters of one encoded `key=value` chunk. -/
def encPairChars (p : String × String) : List Char :=
  (encodeURIComponent p.1).data ++ '=' :: (encodeURIComponent p.2).data

/-- Characters contributed by all pairs after the first: each preceded by `&`. -/
def ampChars : List (String × String) → List Char
  | [] => []
  | p :: ps => '&' :: (encPairChars p ++ ampChars ps)

/-- The encoded pairs joined with `&` (no leading separator). -/
def pairsChars : List (String × String) → List Char
  | [] => []
  | p :: ps => encPairChars p ++ ampChars ps

/-- String form of the `&`-joined encoded pairs. -/
def pairsJoined (ps : List (String × String)) : String :=
  String.mk (pairsChars ps)

/-- The `JParams` value denoting a plain object whose values are all strings. -/
def strParams (ps : List (String × String)) : JParams :=
  .jobj (ps.map fun p => (p.1, .str p.2))

theorem raceStep_of_detached (url : String) (st : RaceState)
    (h1 : st.timerActive = false) (h2 : st.hasLoadListener = false)
    (h3 : st.hasErrorListener = false) (e : RaceEvent) :
    raceStep url st e = st := by
  cases e <;> simp [raceStep, h1, h2, h3]

theorem raceStep_init_detached (url : String) (e : RaceEvent) :
    (raceStep url initRace e).timerActive = false ∧
    (raceStep url initRace e).hasLoadListener = false ∧
    (raceStep url initRace e).hasErrorListener = false := by
  cases e <;> simp [raceStep, initRace, settle, cleanup]

theorem raceRun_of_detached (url : String) (st : RaceState)
    (h1 : st.timerActive = false) (h2 : st.hasLoadListener = false)
    (h3 : st.hasErrorListener = false) (es : List RaceEvent) :
    raceRun url st es = st := by
  induction es with
  | nil => rfl
  | cons e es ih =>
    show raceRun url (raceStep url st e) es = st
    rw [raceStep_of_detached url st h1 h2 h3]
    exact ih

theorem raceRun_eq_first (url : String) (e : RaceEvent) (es : List RaceEvent) :
    raceRun url initRace (e :: es) = raceStep url initRace e := by
  show raceRun url (raceStep url initRace e) es = raceStep url initRace e
  obtain ⟨h1, h2, h3⟩ := raceStep_init_detached url e
  exact raceRun_of_detached url _ h1 h2 h3 es

theorem raceStep_init_settles (url : String) (e : RaceEvent) :
    (raceStep url initRace e).settled = some (firstEventOutcome url e) := by
  cases e <;> simp [raceStep, initRace, settle, cleanup, firstEventOutcome]

/-- C2: once the race begins, whichever of the three events (success observer,
failure observer, timer) fires first fully determines the final state — every
subsequent event firing is a no-op — and the promise is settled exactly once,
with the outcome determined by that first event. -/
theorem c2_exactly_one_settlement (url : String) (e : RaceEvent) (es : List RaceEvent) :
    raceRun url initRace (e :: es) = raceStep url initRace e ∧
    (raceRun url initRace (e :: es)).settled = some (firstEventOutcome url e) := by
  refine ⟨raceRun_eq_first url e es, ?_⟩
  rw [raceRun_eq_first url e es]
  exact raceStep_init_settles url e

/-- C3: on any settlement the timer is cancelled and both observers are
detached; a failure settlement (error observer or timer first) removes the
inserted node from its parent, while a success settlement leaves it
attached. -/
theorem c3_cleanup_effects (url : String) (e : RaceEvent) (es : List RaceEvent) :
    (raceRun url initRace (e :: es)).timerActive = false ∧
    (raceRun url initRace (e :: es)).hasLoadListener = false ∧
    (raceRun url initRace (e :: es)).hasErrorListener = false ∧
    (raceRun url initRace (e :: es)).attached =
      (match e with | .load => true | .error => false | .timer => false) := by
  rw [raceRun_eq_first url e es]
  cases e <;> simp [raceStep, initRace, settle, cleanup]

/-- C8: when the failure observer fires first the promise rejects with exactly
`Failed to load <url>.`, and when the timer fires first it rejects with exactly
`Script loading timed out after 2000ms: <url>`, the timeout being the fixed
2000 ms; `<url>` is the URL the race was started with (the constructed URL). -/
theorem c8_failure_messages (url : String) :
    (raceStep url initRace .error).settled =
      some (.failure (.error ("Failed to load " ++ url ++ "."))) ∧
    (raceStep url initRace .timer).settled =
      some (.failure (.error ("Script loading timed out after 2000ms: " ++ url))) ∧
    timeoutDuration = 2000 := by
  refine ⟨?_, ?_, rfl⟩
  · simp [raceStep, initRace, settle, cleanup, loadErrorMsg]
  · have h : timeoutMsg url = "Script loading timed out after 2000ms: " ++ url := by
      show ("Script loading timed out after " ++ toString timeoutDuration ++ "ms: ") ++ url =
        "Script loading timed out after 2000ms: " ++ url
      rw [show "Script loading timed out after " ++ toString timeoutDuration ++ "ms: " =
        "Script loading timed out after 2000ms: " from rfl]
    simp [raceStep, initRace, settle, cleanup, h]

theorem validateInputs_params (o : Option String) (bs : String) (q : JParams)
    (h : (validateInputs o (.str bs) q).valid = true) :
    (validateParamsStrict q).valid = true := by
  simp only [validateInputs] at h
  split at h
  · simp at h
  · split at h
    · simp at h
    · split at h
      · exact h
      · simp at h

theorem validateParamsStrict_shape (q : JParams)
    (h : (validateParamsStrict q).valid = true) : ∃ l, q = JParams.jobj l := by
  cases q <;> simp [validateParamsStrict] at h ⊢

theorem valid_shapes (o : Option String) (b : JSVal) (q : JParams)
    (h : (validateInputs o b q).valid = true) :
    ∃ bs l, b = .str bs ∧ q = .jobj l := by
  cases b with
  | nonString => simp [validateInputs] at h
  | str bs =>
    obtain ⟨l, hl⟩ := validateParamsStrict_shape q (validateInputs_params o bs q h)
    exact ⟨bs, l, rfl, hl⟩

theorem generateUrl_of_valid (o : Option String) (bs : String) (l : List (String × JSVal))
    (h : (validateInputs o (.str bs) (.jobj l)).valid = true) :
    generateUrl o (.str bs) (.jobj l) = .ok (buildCore bs (entryStrings l)) := by
  simp [generateUrl, h]

theorem generateUrlLoose_of_ok (b : JSVal) (q : JParams) (u : String)
    (h : generateUrlLoose b q = .ok u) :
    ∃ bs l, b = .str bs ∧ q = .jobj l ∧ u = buildCore bs (entryStrings l) := by
  cases b with
  | nonString => simp [generateUrlLoose, validateLooseGen] at h
  | str bs =>
    cases q with
    | jobj l =>
      refine ⟨bs, l, rfl, rfl, ?_⟩
      simp [generateUrlLoose] at h
      split at h <;> simp_all
    | jnull => simp [generateUrlLoose, validateLooseGen] at h; split at h <;> simp_all
    | jundef => simp [generateUrlLoose, validateLooseGen] at h; split at h <;> simp_all
    | jarr => simp [generateUrlLoose, validateLooseGen] at h; split at h <;> simp_all
    | jprim => simp [generateUrlLoose, validateLooseGen] at h; split at h <;> simp_all

theorem generateUrl_of_ok (o : Option String) (b : JSVal) (q : JParams) (u : String)
    (h : generateUrl o b q = .ok u) :
    ∃ bs l, b = .str bs ∧ q = .jobj l ∧ u = buildCore bs (entryStrings l) := by
  have hv : (validateInputs o b q).valid = true := by
    by_contra hv
    rw [Bool.not_eq_true] at hv
    simp [generateUrl, hv] at h
  obtain ⟨bs, l, hb, hq⟩ := valid_shapes o b q hv
  subst hb; subst hq
  refine ⟨bs, l, rfl, rfl, ?_⟩
  rw [generateUrl_of_valid o bs l hv] at h
  exact (Except.ok.injEq _ _ ▸ h).symm

/-- C10: whenever the strict variant's `generateUrl` (src/src/index.ts) and the
loose variant's `generateUrl` (src/unnamed/part_000) both succeed on the same
`(baseUrl, params)` input, they return the identical URL string (their
post-validation build bodies are the same code). -/
theorem c10_variants_agree (o : Option String) (b : JSVal) (q : JParams)
    (u₁ u₂ : String) (h₁ : generateUrl o b q = .ok u₁)
    (h₂ : generateUrlLoose b q = .ok u₂) : u₁ = u₂ := by
  obtain ⟨bs, l, hb, hq, hu₁⟩ := generateUrl_of_ok o b q u₁ h₁
  subst hb; subst hq
  obtain ⟨bs', l', hb', hq', hu₂⟩ := generateUrlLoose_of_ok _ _ u₂ h₂
  have hbs : bs' = bs := by injection hb'.symm
  have hls : l' = l := by injection hq'.symm
  rw [hu₁, hu₂, hbs, hls]

/-- Witness for C10 at a concrete input on which both variants succeed. -/
theorem c10_variants_agree_witness : ("http://x?v=2" : String) = "http://x?v=2" :=
  c10_variants_agree (some "https:") (JSVal.str "http://x")
    (JParams.jobj [("v", JSVal.str "2")]) "http://x?v=2" "http://x?v=2"
    (by decide) (by decide)

/-- C5 counterexample: the claim quantifies over all `baseUrl`, but
`generateUrl("", {})` throws `baseUrl cannot be empty` instead of returning
`""` unchanged — `buildUrl(baseUrl, {})` is not `baseUrl` for every
`baseUrl`. -/
theorem c5_counterexample :
    generateUrl (some "https:") (JSVal.str "") (JParams.jobj []) =
      .error (JsError.error "baseUrl cannot be empty") ∧
    generateUrl (some "https:") (JSVal.str "") (JParams.jobj []) ≠
      Except.ok "" := by decide

/-- C5 amended: for every `baseUrl` that passes validation, `generateUrl`
applied to an empty parameter mapping returns `baseUrl` exactly, unchanged. -/
theorem c5_noparams_passthrough (o : Option String) (b : String)
    (h : (validateInputs o (.str b) (.jobj [])).valid = true) :
    generateUrl o (.str b) (.jobj []) = .ok b := by
  rw [generateUrl_of_valid o b [] h]
  simp [buildCore, entryStrings]

/-- Witness for C5 (amended) at a concrete valid base URL. -/
theorem c5_noparams_passthrough_witness :
    generateUrl (some "https:") (.str "https://cdn.example.com/widget.js") (.jobj []) =
      .ok "https://cdn.example.com/widget.js" :=
  c5_noparams_passthrough (some "https:") "https://cdn.example.com/widget.js" (by decide)

/-- C9 counterexample: `generateUrl` is not a pure function of its two inputs:
`validateInputs` reads the ambient `window.location.origin` (line 20 of
src/src/index.ts), so the same `(baseUrl, params)` pair gives different
results under different ambient origins — `widget.js` under an `https:` page
origin versus a `file:` page origin, and even the absolute `http://x/a` under
an `https:` origin versus an opaque (unparseable) origin, where the URL
constructor throws on the base before looking at the input. -/
theorem c9_counterexample :
    generateUrl (some "https:") (JSVal.str "widget.js") (JParams.jobj []) =
      .ok "widget.js" ∧
    generateUrl (some "file:") (JSVal.str "widget.js") (JParams.jobj []) =
      .error (JsError.error "baseUrl must use http: or https: protocol") ∧
    generateUrl (some "https:") (JSVal.str "widget.js") (JParams.jobj []) ≠
      generateUrl (some "file:") (JSVal.str "widget.js") (JParams.jobj []) ∧
    generateUrl (some "https:") (JSVal.str "http://x/a") (JParams.jobj []) =
      .ok "http://x/a" ∧
    generateUrl none (JSVal.str "http://x/a") (JParams.jobj []) =
      .error (JsError.error "baseUrl must be a valid URL") ∧
    generateUrl (some "https:") (JSVal.str "http://x/a") (JParams.jobj []) ≠
      generateUrl none (JSVal.str "http://x/a") (JParams.jobj []) := by decide

theorem schemeSplit_of_schemeOf (t sch : String) (h : schemeOf t = some sch) :
    ∃ rest, schemeSplit t = some (sch, rest) := by
  unfold schemeOf at h
  cases hs : schemeSplit t with
  | none => rw [hs] at h; exact Option.noConfusion h
  | some pr =>
    obtain ⟨a, r⟩ := pr
    rw [hs] at h
    simp at h
    subst h
    exact ⟨r, rfl⟩

/-- C9 amended: `generateUrl` performs no side effects (it is modelled as a
pure function of its inputs and the ambient origin protocol), but it is a
function of `(baseUrl, params)` and `window.location.origin`, not of its two
inputs alone. The two-run equality that does hold: for a base URL carrying an
explicit non-special scheme (not http/https/ws/wss/ftp/file — e.g.
`javascript:`), two runs whose ambient origins are themselves parseable
return equal results, since the WHATWG parser never consults a parseable base
for such inputs. (Scheme-less base URLs differ across origins — the
counterexample — and an opaque origin makes even absolute inputs throw.) -/
theorem c9_scheme_ambient_independent (p₁ p₂ : String) (b : String) (q : JParams)
    (sch : String) (hs : schemeOf (jsTrim b) = some sch)
    (hn : isSpecialScheme sch = false) :
    generateUrl (some p₁) (.str b) q = generateUrl (some p₂) (.str b) q := by
  obtain ⟨rest, hsp⟩ := schemeSplit_of_schemeOf _ _ hs
  simp [generateUrl, validateInputs, newURLProtocol, hsp, hn]

/-- Witness for C9 (amended) at a concrete non-special-scheme base URL and two
different parseable ambient origins. -/
theorem c9_scheme_ambient_independent_witness :
    generateUrl (some "https:") (.str "javascript:alert(1)") (strParams [("v", "2")]) =
      generateUrl (some "file:") (.str "javascript:alert(1)") (strParams [("v", "2")]) :=
  c9_scheme_ambient_independent "https:" "file:" "javascript:alert(1)"
    (strParams [("v", "2")]) "javascript" (by decide) (by decide)

theorem schemeOf_ne_empty (t : String) (sch : String) (h : schemeOf t = some sch) :
    t ≠ "" := by
  intro he
  rw [he] at h
  exact Option.noConfusion h

theorem base_facts (o : Option String) (b : String)
    (h : (validateInputs o (.str b) (.jobj [])).valid = true) :
    jsTrim b ≠ "" ∧ ∃ p, newURLProtocol b o = some p ∧ (p = "http:" ∨ p = "https:") := by
  by_cases he : jsTrim b = ""
  · simp [validateInputs, he] at h
  · refine ⟨he, ?_⟩
    cases hn : newURLProtocol b o with
    | none => simp [validateInputs, he, hn] at h
    | some p =>
      refine ⟨p, rfl, ?_⟩
      by_cases hp : p = "http:" ∨ p = "https:"
      · exact hp
      · push_neg at hp
        simp [validateInputs, he, hn, hp.1, hp.2] at h

theorem vi_baseOk (o : Option String) (b : String) (q : JParams)
    (h : (validateInputs o (.str b) (.jobj [])).valid = true) :
    validateInputs o (.str b) q = validateParamsStrict q := by
  obtain ⟨he, p, hn, hp⟩ := base_facts o b h
  rcases hp with hp | hp <;> simp [validateInputs, he, hn, hp]

theorem asl_reject (env : Env) (b : JSVal) (q : JParams) (e : JsError)
    (hw : env.hasWindow = true)
    (hval : validateInputs env.originProtocol b q = ⟨false, some e⟩) :
    asyncScriptLoader env b q = (.rejected e, []) := by
  simp [asyncScriptLoader, hw, hval]

/-- C1: with a browser environment present, every input in the validation
rejection set — non-string `baseUrl`; empty/whitespace-only `baseUrl`;
`baseUrl` with a scheme other than http/https; `null` or array `params`; a
non-string parameter value; an empty parameter key — makes `asyncScriptLoader`
return an already-rejected promise carrying an identifiable validation error
with zero DOM interactions. A disallowed-scheme `baseUrl` rejects with the
protocol allow-list message or, when the URL constructor itself throws (an
opaque page origin, or a special scheme with an empty authority such as
`ftp://`), with the valid-URL message; every other category has its own fixed
message, and all eight messages are pairwise distinct. In particular
`loadScript("javascript:alert(1)", {})` under a normal origin rejects with
the protocol validation error and creates no node. -/
theorem c1_validation_rejections :
    (∀ (env : Env) (q : JParams), env.hasWindow = true →
      asyncScriptLoader env .nonString q =
        (.rejected (.typeError "baseUrl must be a string"), [])) ∧
    (∀ (env : Env) (s : String) (q : JParams), env.hasWindow = true → jsTrim s = "" →
      asyncScriptLoader env (.str s) q =
        (.rejected (.error "baseUrl cannot be empty"), [])) ∧
    (∀ (env : Env) (s : String) (q : JParams) (sch : String), env.hasWindow = true →
      schemeOf (jsTrim s) = some sch →
      sch ++ ":" ≠ "http:" → sch ++ ":" ≠ "https:" →
      asyncScriptLoader env (.str s) q =
        (.rejected (.error "baseUrl must use http: or https: protocol"), []) ∨
      asyncScriptLoader env (.str s) q =
        (.rejected (.error "baseUrl must be a valid URL"), [])) ∧
    (∀ (env : Env) (s : String), env.hasWindow = true →
      (validateInputs env.originProtocol (.str s) (.jobj [])).valid = true →
      asyncScriptLoader env (.str s) .jnull =
        (.rejected (.typeError "queryParamsObject must be an object"), []) ∧
      asyncScriptLoader env (.str s) .jarr =
        (.rejected (.typeError "queryParamsObject must be a plain object"), [])) ∧
    (∀ (env : Env) (s k : String) (v : JSVal) (rest : List (String × JSVal)),
      env.hasWindow = true →
      (validateInputs env.originProtocol (.str s) (.jobj [])).valid = true →
      jsTrim k = "" →
      asyncScriptLoader env (.str s) (.jobj ((k, v) :: rest)) =
        (.rejected (.error "queryParamsObject keys cannot be empty"), [])) ∧
    (∀ (env : Env) (s k : String) (rest : List (String × JSVal)),
      env.hasWindow = true →
      (validateInputs env.originProtocol (.str s) (.jobj [])).valid = true →
      jsTrim k ≠ "" →
      asyncScriptLoader env (.str s) (.jobj ((k, .nonString) :: rest)) =
        (.rejected
          (.typeError ("queryParamsObject value for key \"" ++ k ++ "\" must be a string")),
          [])) ∧
    asyncScriptLoader ⟨true, some "https:", true⟩ (.str "javascript:alert(1)") (.jobj []) =
      (.rejected (.error "baseUrl must use http: or https: protocol"), []) ∧
    List.Pairwise (· ≠ ·)
      ["baseUrl must be a string", "baseUrl cannot be empty",
        "baseUrl must use http: or https: protocol", "baseUrl must be a valid URL",
        "queryParamsObject must be an object", "queryParamsObject must be a plain object",
        "queryParamsObject keys cannot be empty",
        "queryParamsObject value for key \"k\" must be a string"] := by
  refine ⟨?_, ?_, ?_, ?_, ?_, ?_, by decide, by decide⟩
  · intro env q hw
    exact asl_reject env _ q _ hw rfl
  · intro env s q hw he
    exact asl_reject env _ q _ hw (by simp [validateInputs, he])
  · intro env s q sch hw hs h1 h2
    have he : jsTrim s ≠ "" := schemeOf_ne_empty _ _ hs
    obtain ⟨rest, hsp⟩ := schemeSplit_of_schemeOf _ _ hs
    cases ho : env.originProtocol with
    | none =>
      refine Or.inr (asl_reject env _ q _ hw ?_)
      simp [validateInputs, he, newURLProtocol, ho]
    | some p =>
      by_cases hbad : isSpecialScheme sch ∧ sch ≠ "file" ∧ authorityOf rest = []
      · refine Or.inr (asl_reject env _ q _ hw ?_)
        simp [validateInputs, he, newURLProtocol, ho, hsp, hbad]
      · refine Or.inl (asl_reject env _ q _ hw ?_)
        simp [validateInputs, he, newURLProtocol, ho, hsp, hbad, h1, h2]
  · intro env s hw hv
    constructor
    · exact asl_reject env _ _ _ hw (by rw [vi_baseOk _ _ _ hv]; rfl)
    · exact asl_reject env _ _ _ hw (by rw [vi_baseOk _ _ _ hv]; rfl)
  · intro env s k v rest hw hv hk
    refine asl_reject env _ _ _ hw ?_
    rw [vi_baseOk _ _ _ hv]
    simp [validateParamsStrict, validateParamEntries, hk]
  · intro env s k rest hw hv hk
    refine asl_reject env _ _ _ hw ?_
    rw [vi_baseOk _ _ _ hv]
    simp [validateParamsStrict, validateParamEntries, hk]

/-- Witness for C1: each hypothesis-bearing conjunct instantiated at a
concrete input. -/
theorem c1_validation_rejections_witness :
    asyncScriptLoader ⟨true, some "https:", true⟩ .nonString (.jobj []) =
      (.rejected (.typeError "baseUrl must be a string"), []) ∧
    asyncScriptLoader ⟨true, some "https:", true⟩ (.str " ") (.jobj []) =
      (.rejected (.error "baseUrl cannot be empty"), []) ∧
    (asyncScriptLoader ⟨true, some "https:", true⟩ (.str "javascript:alert(1)") (.jobj [("v", .str "2")]) =
        (.rejected (.error "baseUrl must use http: or https: protocol"), []) ∨
      asyncScriptLoader ⟨true, some "https:", true⟩ (.str "javascript:alert(1)") (.jobj [("v", .str "2")]) =
        (.rejected (.error "baseUrl must be a valid URL"), [])) ∧
    asyncScriptLoader ⟨true, some "https:", true⟩ (.str "https://x") .jnull =
      (.rejected (.typeError "queryParamsObject must be an object"), []) ∧
    asyncScriptLoader ⟨true, some "https:", true⟩ (.str "https://x") (.jobj [(" ", .str "2")]) =
      (.rejected (.error "queryParamsObject keys cannot be empty"), []) ∧
    asyncScriptLoader ⟨true, some "https:", true⟩ (.str "https://x") (.jobj [("k", .nonString)]) =
      (.rejected (.typeError "queryParamsObject value for key \"k\" must be a string"), []) :=
  ⟨c1_validation_rejections.1 _ _ rfl,
    c1_validation_rejections.2.1 _ " " _ rfl (by decide),
    c1_validation_rejections.2.2.1 _ "javascript:alert(1)" _ "javascript" rfl (by decide)
      (by decide) (by decide),
    (c1_validation_rejections.2.2.2.1 _ "https://x" rfl (by decide)).1,
    c1_validation_rejections.2.2.2.2.1 _ "https://x" " " (.str "2") [] rfl (by decide)
      (by decide),
    c1_validation_rejections.2.2.2.2.2.1 _ "https://x" "k" [] rfl (by decide) (by decide)⟩

theorem generateUrl_ok_of_valid (o : Option String) (b : JSVal) (q : JParams)
    (h : (validateInputs o b q).valid = true) :
    ∃ u, generateUrl o b q = .ok u := by
  obtain ⟨bs, l, hb, hq⟩ := valid_shapes o b q h
  subst hb; subst hq
  exact ⟨_, generateUrl_of_valid o bs l h⟩

/-- C4 counterexample: the claim says the DomError fast-failure path creates
no node, but the code runs `document.createElement('script')` before the
`<head>` lookup: on a head-less document with valid inputs the result is the
DomError rejection, yet the DOM-interaction trace contains the element
creation. -/
theorem c4_counterexample :
    asyncScriptLoader ⟨true, some "https:", false⟩
        (.str "https://cdn.example.com/widget.js") (.jobj []) =
      (.rejected (.error "No <head> element found in document"), [.createElement]) ∧
    (asyncScriptLoader ⟨true, some "https:", false⟩
        (.str "https://cdn.example.com/widget.js") (.jobj [])).2 ≠ [] := by decide

/-- C4 amended: the EnvironmentError and ValidationError fast-failure paths
produce an already-rejected promise with zero DOM interaction; the DomError
path (no head insertion point) also produces an already-rejected promise and
never inserts anything — the document is unchanged — but it does create one
detached script node, because element creation precedes the head lookup. -/
theorem c4_fast_failures (env : Env) (b : JSVal) (q : JParams) :
    (env.hasWindow = false →
      asyncScriptLoader env b q =
        (.rejected (.error "asyncScriptLoader requires a browser environment"), [])) ∧
    (env.hasWindow = true → (validateInputs env.originProtocol b q).valid = false →
      asyncScriptLoader env b q =
        (.rejected ((validateInputs env.originProtocol b q).error.getD
          (.error "unreachable")), [])) ∧
    (env.hasWindow = true → (validateInputs env.originProtocol b q).valid = true →
      env.hasHead = false →
      asyncScriptLoader env b q =
        (.rejected (.error "No <head> element found in document"), [.createElement])) := by
  refine ⟨?_, ?_, ?_⟩
  · intro hw
    simp [asyncScriptLoader, hw]
  · intro hw hv
    simp [asyncScriptLoader, hw, hv]
  · intro hw hv hh
    obtain ⟨u, hu⟩ := generateUrl_ok_of_valid env.originProtocol b q hv
    simp [asyncScriptLoader, hw, hv, hu, hh]

/-- Witness for C4 (amended): each conjunct instantiated concretely. -/
theorem c4_fast_failures_witness :
    asyncScriptLoader ⟨false, some "https:", true⟩ (.str "https://x") (.jobj []) =
      (.rejected (.error "asyncScriptLoader requires a browser environment"), []) ∧
    asyncScriptLoader ⟨true, some "https:", true⟩ (.str "") (.jobj []) =
      (.rejected ((validateInputs (some "https:") (.str "") (.jobj [])).error.getD
        (.error "unreachable")), []) ∧
    asyncScriptLoader ⟨true, some "https:", false⟩ (.str "https://x") (.jobj []) =
      (.rejected (.error "No <head> element found in document"), [.createElement]) :=
  ⟨(c4_fast_failures ⟨false, some "https:", true⟩ (.str "https://x") (.jobj [])).1 rfl,
    (c4_fast_failures ⟨true, some "https:", true⟩ (.str "") (.jobj [])).2.1 rfl (by decide),
    (c4_fast_failures ⟨true, some "https:", false⟩ (.str "https://x") (.jobj [])).2.2 rfl
      (by decide) rfl⟩

theorem encodeURIComponent_data (s : String) :
    (encodeURIComponent s).data = encList s.data := rfl

theorem ampString_data : ("&" : String).data = ['&'] := rfl

theorem eqString_data : ("=" : String).data = ['='] := rfl

theorem emptyString_data : ("" : String).data = [] := rfl

theorem queryReduceAux_data (fs : String) (ps : List (String × String)) :
    ∀ (i : Nat) (acc : String), i ≠ 0 →
      (queryReduceAux fs i acc ps).data = acc.data ++ ampChars ps := by
  induction ps with
  | nil => intro i acc hi; simp [queryReduceAux, ampChars]
  | cons p rest ih =>
    intro i acc hi
    obtain ⟨k, v⟩ := p
    show (queryReduceAux fs (i + 1)
      (acc ++ (if i = 0 then fs else "&") ++
        encodeURIComponent k ++ "=" ++ encodeURIComponent v) rest).data = _
    rw [if_neg hi, ih (i + 1) _ (by omega)]
    simp [ampChars, encPairChars, String.data_append, encodeURIComponent_data,
      ampString_data, eqString_data]

theorem queryReduce_data (fs : String) (p : String × String)
    (ps : List (String × String)) :
    (queryReduce fs (p :: ps)).data = fs.data ++ pairsChars (p :: ps) := by
  obtain ⟨k, v⟩ := p
  show (queryReduceAux fs (0 + 1)
    ("" ++ (if (0 : Nat) = 0 then fs else "&") ++
      encodeURIComponent k ++ "=" ++ encodeURIComponent v) ps).data = _
  rw [if_pos rfl, queryReduceAux_data fs ps 1 _ (by omega)]
  simp [pairsChars, encPairChars, String.data_append, encodeURIComponent_data,
    eqString_data, emptyString_data]

theorem entryStrings_strParams (ps : List (String × String)) :
    entryStrings (ps.map fun p => (p.1, JSVal.str p.2)) = ps := by
  simp [entryStrings, List.map_map]
  exact List.map_id ps

theorem buildCore_cons (b : String) (p : String × String) (ps : List (String × String)) :
    buildCore b (p :: ps) =
      b ++ queryReduce (if containsChar b '?' then "&" else "?") (p :: ps) := by
  simp [buildCore]

/-- C6: whenever a URL is actually constructed (validation passes) from a
non-empty parameter list, the result is `baseUrl` followed by a single first
separator — `&` when `baseUrl` contains `?`, else `?` — followed by the
`key=value` pairs in the mapping's iteration order, every later pair joined
with `&` (this is `pairsJoined`, whose joins are all `&`). -/
theorem c6_separator_correctness (o : Option String) (b : String)
    (ps : List (String × String)) (hne : ps ≠ [])
    (hv : (validateInputs o (.str b) (strParams ps)).valid = true) :
    generateUrl o (.str b) (strParams ps) =
      .ok (b ++ (if containsChar b '?' then "&" else "?") ++ pairsJoined ps) := by
  simp only [strParams] at hv ⊢
  rw [generateUrl_of_valid o b _ hv, entryStrings_strParams]
  cases ps with
  | nil => exact absurd rfl hne
  | cons p rest =>
    rw [buildCore_cons]
    refine congrArg Except.ok (String.ext ?_)
    simp [String.data_append, queryReduce_data, pairsJoined]

/-- Witness for C6 at concrete inputs, one base URL without `?` and one
with. -/
theorem c6_separator_correctness_witness :
    generateUrl (some "https:") (.str "http://x") (strParams [("a", "1"), ("b", "2")]) =
      .ok ("http://x" ++ (if containsChar "http://x" '?' then "&" else "?") ++
        pairsJoined [("a", "1"), ("b", "2")]) ∧
    generateUrl (some "https:") (.str "http://x?c") (strParams [("a", "1")]) =
      .ok ("http://x?c" ++ (if containsChar "http://x?c" '?' then "&" else "?") ++
        pairsJoined [("a", "1")]) :=
  ⟨c6_separator_correctness (some "https:") "http://x" [("a", "1"), ("b", "2")]
      (by decide) (by decide),
    c6_separator_correctness (some "https:") "http://x?c" [("a", "1")]
      (by decide) (by decide)⟩

theorem hexVal_hexDigitU (n : Nat) (h : n < 16) : hexVal (hexDigitU n) = some n := by
  interval_cases n <;> decide

theorem pctDecode_pctTriple (b : Nat) (hb : b < 256) (rest : List Char) :
    pctDecode (pctTriple b ++ rest) = (pctDecode rest).map fun t => b :: t := by
  have h1 : b / 16 < 16 := by omega
  show pctDecode ('%' :: hexDigitU (b / 16) :: hexDigitU (b % 16) :: rest) = _
  simp only [pctDecode, if_pos rfl, hexVal_hexDigitU _ h1, hexVal_hexDigitU _ (by omega : b % 16 < 16)]
  rw [show b / 16 * 16 + b % 16 = b from by omega]
  simp

theorem char_toNat_lt (c : Char) : c.toNat < 1114112 := by
  rcases c.valid with h | ⟨_, h⟩ <;> simp [Char.toNat] <;> omega

theorem utf8Bytes_lt (c : Char) : ∀ b ∈ utf8Bytes c, b < 256 := by
  intro b hb
  have hc := char_toNat_lt c
  simp only [utf8Bytes] at hb
  split at hb <;> try split at hb
  all_goals first
    | (simp at hb; omega)
    | (try split at hb
       all_goals (simp at hb; omega))

theorem pctDecode_triples (bs : List Nat) (h : ∀ b ∈ bs, b < 256) (rest : List Char) :
    pctDecode (bs.flatMap pctTriple ++ rest) = (pctDecode rest).map fun t => bs ++ t := by
  induction bs with
  | nil => simp
  | cons b bs ih =>
    have hb := h b (by simp)
    simp only [List.flatMap_cons, List.append_assoc]
    rw [pctDecode_pctTriple b hb, ih (fun x hx => h x (by simp [hx]))]
    cases pctDecode rest <;> simp

theorem uriUnescaped_ne (c : Char) (h : isUriUnescaped c = true) :
    c ≠ '%' ∧ c ≠ '&' ∧ c ≠ '=' := by
  refine ⟨?_, ?_, ?_⟩ <;> intro he <;> subst he <;> simp [isUriUnescaped] at h

theorem pctDecode_encChar (c : Char) (rest : List Char) :
    pctDecode (encChar c ++ rest) = (pctDecode rest).map fun t => utf8Bytes c ++ t := by
  by_cases h : isUriUnescaped c = true
  · obtain ⟨hp, _, _⟩ := uriUnescaped_ne c h
    simp only [encChar, if_pos h, List.singleton_append]
    rw [pctDecode.eq_def]
    simp only [if_neg hp]
  · simp only [encChar, if_neg h]
    exact pctDecode_triples (utf8Bytes c) (utf8Bytes_lt c) rest

theorem pctDecode_encList (l : List Char) :
    pctDecode (encList l) = some (l.flatMap utf8Bytes) := by
  induction l with
  | nil => rfl
  | cons c l ih =>
    show pctDecode (encChar c ++ encList l) = _
    rw [pctDecode_encChar, ih]
    rfl

theorem utf8DecodeAux_utf8Bytes (c : Char) (bs : List Nat) :
    utf8DecodeAux none (utf8Bytes c ++ bs) =
      (utf8DecodeAux none bs).map fun cs => c :: cs := by
  have hv := char_toNat_lt c
  by_cases h1 : c.toNat < 0x80
  · have he : utf8Bytes c = [c.toNat] := by simp [utf8Bytes, h1]
    rw [he, List.singleton_append]
    simp only [utf8DecodeAux, if_pos h1]
    rw [Char.ofNat_toNat]
  · by_cases h2 : c.toNat < 0x800
    · have he : utf8Bytes c = [0xC0 + c.toNat / 64, 0x80 + c.toNat % 64] := by
        simp [utf8Bytes, h1, h2]
      rw [he]
      show utf8DecodeAux none
        ((0xC0 + c.toNat / 64) :: (0x80 + c.toNat % 64) :: bs) = _
      simp only [utf8DecodeAux,
        if_neg (show ¬(0xC0 + c.toNat / 64 < 0x80) from by omega),
        if_neg (show ¬(0xC0 + c.toNat / 64 < 0xC0) from by omega),
        if_pos (show 0xC0 + c.toNat / 64 < 0xE0 from by omega),
        if_pos (show 0x80 ≤ 0x80 + c.toNat % 64 ∧ 0x80 + c.toNat % 64 < 0xC0 from
          ⟨by omega, by omega⟩),
        if_pos (show (1 : Nat) ≤ 1 from le_refl 1)]
      rw [show 0xC0 + c.toNat / 64 - 0xC0 = c.toNat / 64 from by omega]
      rw [show c.toNat / 64 * 64 + (0x80 + c.toNat % 64 - 0x80) = c.toNat from by omega]
      rw [Char.ofNat_toNat]
    · by_cases h3 : c.toNat < 0x10000
      · have he : utf8Bytes c =
            [0xE0 + c.toNat / 4096, 0x80 + c.toNat / 64 % 64, 0x80 + c.toNat % 64] := by
          simp [utf8Bytes, h1, h2, h3]
        rw [he]
        show utf8DecodeAux none ((0xE0 + c.toNat / 4096) ::
          (0x80 + c.toNat / 64 % 64) :: (0x80 + c.toNat % 64) :: bs) = _
        simp only [utf8DecodeAux,
          if_neg (show ¬(0xE0 + c.toNat / 4096 < 0x80) from by omega),
          if_neg (show ¬(0xE0 + c.toNat / 4096 < 0xC0) from by omega),
          if_neg (show ¬(0xE0 + c.toNat / 4096 < 0xE0) from by omega),
          if_pos (show 0xE0 + c.toNat / 4096 < 0xF0 from by omega)]
        rw [show 0xE0 + c.toNat / 4096 - 0xE0 = c.toNat / 4096 from by omega]
        simp only [utf8DecodeAux,
          if_pos (show 0x80 ≤ 0x80 + c.toNat / 64 % 64 ∧ 0x80 + c.toNat / 64 % 64 < 0xC0 from
            ⟨by omega, by omega⟩),
          if_neg (show ¬((2 : Nat) ≤ 1) from by omega),
          if_pos (show 0x80 ≤ 0x80 + c.toNat % 64 ∧ 0x80 + c.toNat % 64 < 0xC0 from
            ⟨by omega, by omega⟩),
          if_pos (show (1 : Nat) ≤ 1 from le_refl 1)]
        rw [show (c.toNat / 4096 * 64 + (0x80 + c.toNat / 64 % 64 - 0x80)) * 64 +
            (0x80 + c.toNat % 64 - 0x80) = c.toNat from by omega]
        rw [Char.ofNat_toNat]
      · have he : utf8Bytes c = [0xF0 + c.toNat / 262144, 0x80 + c.toNat / 4096 % 64,
            0x80 + c.toNat / 64 % 64, 0x80 + c.toNat % 64] := by
          simp [utf8Bytes, h1, h2, h3]
        rw [he]
        show utf8DecodeAux none ((0xF0 + c.toNat / 262144) ::
          (0x80 + c.toNat / 4096 % 64) :: (0x80 + c.toNat / 64 % 64) ::
          (0x80 + c.toNat % 64) :: bs) = _
        simp only [utf8DecodeAux,
          if_neg (show ¬(0xF0 + c.toNat / 262144 < 0x80) from by omega),
          if_neg (show ¬(0xF0 + c.toNat / 262144 < 0xC0) from by omega),
          if_neg (show ¬(0xF0 + c.toNat / 262144 < 0xE0) from by omega),
          if_neg (show ¬(0xF0 + c.toNat / 262144 < 0xF0) from by omega),
          if_pos (show 0xF0 + c.toNat / 262144 < 0xF8 from by omega)]
        rw [show 0xF0 + c.toNat / 262144 - 0xF0 = c.toNat / 262144 from by omega]
        simp only [utf8DecodeAux,
          if_pos (show 0x80 ≤ 0x80 + c.toNat / 4096 % 64 ∧
            0x80 + c.toNat / 4096 % 64 < 0xC0 from ⟨by omega, by omega⟩),
          if_neg (show ¬((3 : Nat) ≤ 1) from by omega),
          if_pos (show 0x80 ≤ 0x80 + c.toNat / 64 % 64 ∧
            0x80 + c.toNat / 64 % 64 < 0xC0 from ⟨by omega, by omega⟩),
          if_neg (show ¬((3 - 1 : Nat) ≤ 1) from by omega),
          if_pos (show 0x80 ≤ 0x80 + c.toNat % 64 ∧ 0x80 + c.toNat % 64 < 0xC0 from
            ⟨by omega, by omega⟩),
          if_pos (show (3 - 1 - 1 : Nat) ≤ 1 from by omega)]
        rw [show ((c.toNat / 262144 * 64 + (0x80 + c.toNat / 4096 % 64 - 0x80)) * 64 +
            (0x80 + c.toNat / 64 % 64 - 0x80)) * 64 +
            (0x80 + c.toNat % 64 - 0x80) = c.toNat from by omega]
        rw [Char.ofNat_toNat]

theorem utf8DecodeAux_flatMap (l : List Char) :
    utf8DecodeAux none (l.flatMap utf8Bytes) = some l := by
  induction l with
  | nil => rfl
  | cons c l ih =>
    simp only [List.flatMap_cons]
    rw [utf8DecodeAux_utf8Bytes, ih]
    rfl

theorem decodeComp_enc (s : String) :
    decodeComp (encodeURIComponent s).data = some s := by
  show decodeComp (encList s.data) = some s
  simp only [decodeComp]
  rw [pctDecode_encList]
  show (utf8DecodeAux none (s.data.flatMap utf8Bytes)).map String.mk = some s
  rw [utf8DecodeAux_flatMap]
  rfl

theorem hexDigitU_ne (n : Nat) (h : n < 16) : hexDigitU n ≠ '&' ∧ hexDigitU n ≠ '=' := by
  interval_cases n <;> exact ⟨by decide, by decide⟩

theorem pctTriple_ne (b : Nat) (hb : b < 256) :
    ∀ x ∈ pctTriple b, x ≠ '&' ∧ x ≠ '=' := by
  intro x hx
  simp [pctTriple] at hx
  rcases hx with rfl | rfl | rfl
  · exact ⟨by decide, by decide⟩
  · exact hexDigitU_ne _ (by omega)
  · exact hexDigitU_ne _ (by omega)

theorem encChar_ne (c : Char) : ∀ x ∈ encChar c, x ≠ '&' ∧ x ≠ '=' := by
  intro x hx
  by_cases h : isUriUnescaped c = true
  · simp [encChar, h] at hx
    subst hx
    exact ⟨(uriUnescaped_ne _ h).2.1, (uriUnescaped_ne _ h).2.2⟩
  · simp [encChar, h] at hx
    obtain ⟨b, hb, hxb⟩ := hx
    exact pctTriple_ne b (utf8Bytes_lt c b hb) x hxb

theorem encList_ne (l : List Char) : ∀ x ∈ encList l, x ≠ '&' ∧ x ≠ '=' := by
  intro x hx
  simp [encList] at hx
  obtain ⟨c, _, hxc⟩ := hx
  exact encChar_ne c x hxc

theorem encPairChars_no_amp (p : String × String) :
    ∀ x ∈ encPairChars p, x ≠ '&' := by
  intro x hx
  simp [encPairChars, encodeURIComponent_data] at hx
  rcases hx with hx | rfl | hx
  · exact (encList_ne _ x hx).1
  · decide
  · exact (encList_ne _ x hx).1

theorem splitFirstEq_append (k v : List Char) (hk : ∀ x ∈ k, x ≠ '=') :
    splitFirstEq (k ++ '=' :: v) = some (k, v) := by
  induction k with
  | nil => simp [splitFirstEq]
  | cons c k ih =>
    have hc : c ≠ '=' := hk c (by simp)
    simp only [List.cons_append, splitFirstEq, if_neg hc]
    rw [List.append_eq, ih (fun x hx => hk x (by simp [hx]))]
    rfl

theorem splitOnChar_ne_nil (sep : Char) (l : List Char) : splitOnChar sep l ≠ [] := by
  cases l with
  | nil => simp [splitOnChar]
  | cons c cs =>
    simp only [splitOnChar]
    cases splitOnChar sep cs with
    | nil => simp
    | cons p ps => by_cases h : c = sep <;> simp [h]

theorem splitOnChar_no_sep (sep : Char) (l : List Char) (h : ∀ x ∈ l, x ≠ sep) :
    splitOnChar sep l = [l] := by
  induction l with
  | nil => rfl
  | cons c cs ih =>
    have hc : c ≠ sep := h c (by simp)
    simp only [splitOnChar]
    rw [ih (fun x hx => h x (by simp [hx]))]
    simp [hc]

theorem splitOnChar_append (sep : Char) (part rest : List Char)
    (h : ∀ x ∈ part, x ≠ sep) :
    splitOnChar sep (part ++ sep :: rest) = part :: splitOnChar sep rest := by
  induction part with
  | nil =>
    simp only [List.nil_append, splitOnChar]
    obtain ⟨p, ps, hp⟩ : ∃ p ps, splitOnChar sep rest = p :: ps := by
      cases hsp : splitOnChar sep rest with
      | nil => exact absurd hsp (splitOnChar_ne_nil sep rest)
      | cons p ps => exact ⟨p, ps, rfl⟩
    rw [hp]
    simp
  | cons c cs ih =>
    have hc : c ≠ sep := h c (by simp)
    simp only [List.cons_append, splitOnChar]
    rw [List.append_eq, ih (fun x hx => h x (by simp [hx]))]
    simp [hc]

theorem pairsChars_cons_cons (p q : String × String) (ps : List (String × String)) :
    pairsChars (p :: q :: ps) = encPairChars p ++ '&' :: pairsChars (q :: ps) := rfl

theorem splitOnChar_pairsChars (ps : List (String × String)) (h : ps ≠ []) :
    splitOnChar '&' (pairsChars ps) = ps.map encPairChars := by
  induction ps with
  | nil => exact absurd rfl h
  | cons p rest ih =>
    cases rest with
    | nil =>
      show splitOnChar '&' (encPairChars p ++ []) = [encPairChars p]
      rw [List.append_nil]
      exact splitOnChar_no_sep '&' _ (encPairChars_no_amp p)
    | cons q rest2 =>
      rw [pairsChars_cons_cons, splitOnChar_append '&' _ _ (encPairChars_no_amp p),
        ih (List.cons_ne_nil q rest2)]
      rfl

theorem decodeComp_encList (s : String) : decodeComp (encList s.data) = some s :=
  decodeComp_enc s

theorem decodePairStr_enc (p : String × String) :
    decodePairStr (encPairChars p) = some p := by
  obtain ⟨k, v⟩ := p
  show decodePairStr
    ((encodeURIComponent k).data ++ '=' :: (encodeURIComponent v).data) = _
  simp only [decodePairStr, encodeURIComponent_data]
  rw [splitFirstEq_append (encList k.data) (encList v.data)
    (fun x hx => (encList_ne k.data x hx).2)]
  show (match decodeComp (encList k.data), decodeComp (encList v.data) with
    | some ks, some vs => some (ks, vs)
    | _, _ => none) = _
  rw [decodeComp_encList, decodeComp_encList]

theorem decodePairsList_map (ps : List (String × String)) :
    decodePairsList (ps.map encPairChars) = some ps := by
  induction ps with
  | nil => rfl
  | cons p rest ih =>
    simp only [List.map_cons, decodePairsList]
    rw [decodePairStr_enc, ih]

/-- C7: percent-decoding the query string constructed by the URL builder's
reduce (dropping the single leading separator, `?` or `&`) recovers exactly
the original key/value pairs, whatever reserved or non-ASCII characters they
contain; and the space is encoded as `%20`, not `+`. -/
theorem c7_encoding_roundtrip :
    (∀ (fs : String) (ps : List (String × String)), ps ≠ [] → (fs = "?" ∨ fs = "&") →
      decodeQueryString (String.mk ((queryReduce fs ps).data.drop 1)) = some ps) ∧
    encodeURIComponent " " = "%20" ∧ encodeURIComponent " " ≠ "+" := by
  refine ⟨?_, by decide, by decide⟩
  intro fs ps hne hfs
  cases ps with
  | nil => exact absurd rfl hne
  | cons p rest =>
    have hfs1 : fs.data.length = 1 := by rcases hfs with rfl | rfl <;> rfl
    have hdrop : (fs.data ++ pairsChars (p :: rest)).drop 1 = pairsChars (p :: rest) := by
      have hh := List.drop_left fs.data (pairsChars (p :: rest))
      rwa [hfs1] at hh
    rw [queryReduce_data, hdrop]
    show decodePairsList (splitOnChar '&' (pairsChars (p :: rest))) = _
    rw [splitOnChar_pairsChars _ (List.cons_ne_nil p rest)]
    exact decodePairsList_map (p :: rest)

/-- Witness for C7 at a concrete pair list containing reserved characters. -/
theorem c7_encoding_roundtrip_witness :
    decodeQueryString (String.mk ((queryReduce "?" [("a b", "c&d=e?")]).data.drop 1)) =
      some [("a b", "c&d=e?")] :=
  c7_encoding_roundtrip.1 "?" [("a b", "c&d=e?")] (by decide) (Or.inl rfl)
